import Mathlib

/-!
Shallow embedding of the `glog` logging library (package `glog`, file
`glog.go`) together with theorems checking its natural-language
specification.

Modelling conventions:
* Go byte strings are `List Char` (all inputs of interest are ASCII).
* Go `uint64` arithmetic is `Nat` with explicit `% 2 ^ 64` where the source
  can actually wrap (the size-string parser).  The sink's byte counter is
  modelled as a plain `Nat`: wrapping it would need 2^64 written bytes.
* `os.Exit` / runtime panics are modelled by the `GoAbort` error type.
* The wall clock (`time.Now`) and the caller location resolved through
  `runtime.Caller` are explicit parameters (`Clock`, `file`, `line`).
-/

namespace Glog

/-- `type Severity int32` from the source.  The values that occur are tiny,
so plain `Int` is a faithful model of `int32`. -/
abbrev Severity := Int

/-- `DebugLog Severity = iota` -/
def DebugLog : Severity := 0

/-- `InfoLog` -/
def InfoLog : Severity := 1

/-- `WarningLog` -/
def WarningLog : Severity := 2

/-- `ErrorLog` -/
def ErrorLog : Severity := 3

/-- `FatalLog` -/
def FatalLog : Severity := 4

/-- `const severityChar = "DIWEF"` -/
def severityChars : List Char := ['D', 'I', 'W', 'E', 'F']

/-- `digits[d%10]` where `const digits = "0123456789"`: the ASCII digit
character the source selects for `d`. -/
def goDigit (d : Nat) : Char := Char.ofNat (48 + d % 10)

/-- `buffer.twoDigits`: a zero-prefixed two-digit integer.  The source writes
`digits[d%10]` at `i+1`, divides by ten and writes `digits[d%10]` at `i`. -/
def twoDigitsList (d : Nat) : List Char := [goDigit (d / 10), goDigit d]

/-- `buffer.nDigits`: an `n`-digit integer, left-padded with `pad`; digits are
written from the right while `d > 0`, remaining positions get `pad`. -/
def nDigitsList : Nat → Nat → Char → List Char
  | 0, _, _ => []
  | n + 1, d, pad =>
      if 0 < d then nDigitsList n (d / 10) pad ++ [goDigit d]
      else List.replicate (n + 1) pad

/-- Loop body of `buffer.someDigits`: a do-while that emits `digits[d%10]`,
divides by ten and stops once the quotient is zero.  The source's 29-byte
scratch array bounds the digit count; here an explicit fuel plays that role
(`someDigitsList` supplies enough of it for any input). -/
def someDigitsGo : Nat → Nat → List Char
  | 0, _ => []
  | fuel + 1, d =>
      if d < 10 then [goDigit d]
      else someDigitsGo fuel (d / 10) ++ [goDigit d]

/-- `buffer.someDigits`: minimal-width decimal of `d` (a single `'0'` for 0). -/
def someDigitsList (d : Nat) : List Char := someDigitsGo (d + 1) d

/-- The components `time.Time` contributes to a header: `now.Date()`,
`now.Clock()` and `now.Nanosecond()`. -/
structure Clock where
  year : Nat
  month : Nat
  day : Nat
  hour : Nat
  minute : Nat
  second : Nat
  nanosecond : Nat
  deriving DecidableEq

/-- `loggingT.formatHeader`: severity character, timestamp, file and line,
ending in `"] "`.  The source clamps severities above `FatalLog` and negative
line numbers, then writes
`tmp[0]=severityChar[s]`, 4-digit year, `'-'`, 2-digit month, `'-'`,
2-digit day, `' '`, `hh:mm:ss`, `'.'`, 6-digit microseconds, `' '`,
the file name, `':'`, the line in minimal width, `']'`, `' '`. -/
def formatHeader (s : Severity) (c : Clock) (file : List Char) (line : Int) :
    List Char :=
  let line' : Nat := (if line < 0 then 0 else line).toNat
  let s' : Severity := if s > FatalLog then FatalLog else s
  [severityChars.getD s'.toNat 'D'] ++
    nDigitsList 4 c.year '0' ++ ['-'] ++
    twoDigitsList c.month ++ ['-'] ++
    twoDigitsList c.day ++ [' '] ++
    twoDigitsList c.hour ++ [':'] ++
    twoDigitsList c.minute ++ [':'] ++
    twoDigitsList c.second ++ ['.'] ++
    nDigitsList 6 (c.nanosecond / 1000) '0' ++ [' '] ++
    file ++ [':'] ++ someDigitsList line' ++ [']'] ++ [' ']

/-- The trailing-newline fix shared by `printDepth`, `printf` and
`printfDepth`: `if buf.Bytes()[buf.Len()-1] != '\n' { buf.WriteByte('\n') }`.
(The buffer always contains at least the header, so the Go index cannot be
out of range.) -/
def finishLine (b : List Char) : List Char :=
  if b.getLast? = some '\n' then b else b ++ ['\n']

/-- `loggingT.printDepth`: header, then the print-style payload, then the
newline fix.  The payload parameter stands for the bytes `fmt.Fprint`
renders; the caller location resolved via `runtime.Caller(3+depth)` is the
`file`/`line` pair. -/
def printDepthRecord (s : Severity) (c : Clock) (file : List Char)
    (line : Int) (payload : List Char) : List Char :=
  finishLine (formatHeader s c file line ++ payload)

/-- `loggingT.printfDepth` (and `printf`, which differ only in the stack
depth used for caller resolution). -/
def printfDepthRecord (s : Severity) (c : Clock) (file : List Char)
    (line : Int) (payload : List Char) : List Char :=
  finishLine (formatHeader s c file line ++ payload)

/-- `loggingT.print` = `printDepth` at depth 1. -/
def printRecord (s : Severity) (c : Clock) (file : List Char)
    (line : Int) (payload : List Char) : List Char :=
  printDepthRecord s c file line payload

/-- `loggingT.printf`. -/
def printfRecord (s : Severity) (c : Clock) (file : List Char)
    (line : Int) (payload : List Char) : List Char :=
  printfDepthRecord s c file line payload

/-! ### The public emit operations

Each public operation checks `<sev> >= l.logLevel` and, when the check
passes, assembles and emits one record; the `Fatal*` family additionally
calls `l.exit`, which ends the process with code 2 after a best-effort
flush.  `records` collects what the call hands to the sink, `exitCode` is
the `os.Exit` code when the call terminates the process. -/

structure EmitResult where
  records : List (List Char)
  exitCode : Option Nat
  deriving DecidableEq

/-- `loggingT.Debugf` -/
def Debugf (m : Severity) (c : Clock) (file : List Char) (line : Int)
    (payload : List Char) : EmitResult :=
  if DebugLog ≥ m then ⟨[printfRecord DebugLog c file line payload], none⟩
  else ⟨[], none⟩

/-- `loggingT.Infof` -/
def Infof (m : Severity) (c : Clock) (file : List Char) (line : Int)
    (payload : List Char) : EmitResult :=
  if InfoLog ≥ m then ⟨[printfRecord InfoLog c file line payload], none⟩
  else ⟨[], none⟩

/-- `loggingT.Warningf` -/
def Warningf (m : Severity) (c : Clock) (file : List Char) (line : Int)
    (payload : List Char) : EmitResult :=
  if WarningLog ≥ m then ⟨[printfRecord WarningLog c file line payload], none⟩
  else ⟨[], none⟩

/-- `loggingT.Errorf` -/
def Errorf (m : Severity) (c : Clock) (file : List Char) (line : Int)
    (payload : List Char) : EmitResult :=
  if ErrorLog ≥ m then ⟨[printfRecord ErrorLog c file line payload], none⟩
  else ⟨[], none⟩

/-- `loggingT.Fatalf`: printf-style record, then `l.exit(errors.New(""))`. -/
def Fatalf (m : Severity) (c : Clock) (file : List Char) (line : Int)
    (payload : List Char) : EmitResult :=
  if FatalLog ≥ m then ⟨[printfRecord FatalLog c file line payload], some 2⟩
  else ⟨[], none⟩

/-- `loggingT.Debug` -/
def Debug (m : Severity) (c : Clock) (file : List Char) (line : Int)
    (payload : List Char) : EmitResult :=
  if DebugLog ≥ m then ⟨[printRecord DebugLog c file line payload], none⟩
  else ⟨[], none⟩

/-- `loggingT.Info` -/
def Info (m : Severity) (c : Clock) (file : List Char) (line : Int)
    (payload : List Char) : EmitResult :=
  if InfoLog ≥ m then ⟨[printRecord InfoLog c file line payload], none⟩
  else ⟨[], none⟩

/-- `loggingT.Warning` -/
def Warning (m : Severity) (c : Clock) (file : List Char) (line : Int)
    (payload : List Char) : EmitResult :=
  if WarningLog ≥ m then ⟨[printRecord WarningLog c file line payload], none⟩
  else ⟨[], none⟩

/-- `loggingT.Error` -/
def Error (m : Severity) (c : Clock) (file : List Char) (line : Int)
    (payload : List Char) : EmitResult :=
  if ErrorLog ≥ m then ⟨[printRecord ErrorLog c file line payload], none⟩
  else ⟨[], none⟩

/-- `loggingT.Fatal` -/
def Fatal (m : Severity) (c : Clock) (file : List Char) (line : Int)
    (payload : List Char) : EmitResult :=
  if FatalLog ≥ m then ⟨[printRecord FatalLog c file line payload], some 2⟩
  else ⟨[], none⟩

/-- `loggingT.DebugDepth` (`_depth` shifts only which caller
`runtime.Caller` resolves; that resolution is the `file`/`line` input). -/
def DebugDepth (m : Severity) (_depth : Int) (c : Clock) (file : List Char)
    (line : Int) (payload : List Char) : EmitResult :=
  if DebugLog ≥ m then ⟨[printDepthRecord DebugLog c file line payload], none⟩
  else ⟨[], none⟩

/-- `loggingT.InfoDepth` -/
def InfoDepth (m : Severity) (_depth : Int) (c : Clock) (file : List Char)
    (line : Int) (payload : List Char) : EmitResult :=
  if InfoLog ≥ m then ⟨[printDepthRecord InfoLog c file line payload], none⟩
  else ⟨[], none⟩

/-- `loggingT.WarningDepth` -/
def WarningDepth (m : Severity) (_depth : Int) (c : Clock) (file : List Char)
    (line : Int) (payload : List Char) : EmitResult :=
  if WarningLog ≥ m then ⟨[printDepthRecord WarningLog c file line payload], none⟩
  else ⟨[], none⟩

/-- `loggingT.ErrorDepth` -/
def ErrorDepth (m : Severity) (_depth : Int) (c : Clock) (file : List Char)
    (line : Int) (payload : List Char) : EmitResult :=
  if ErrorLog ≥ m then ⟨[printDepthRecord ErrorLog c file line payload], none⟩
  else ⟨[], none⟩

/-- `loggingT.FatalDepth` -/
def FatalDepth (m : Severity) (_depth : Int) (c : Clock) (file : List Char)
    (line : Int) (payload : List Char) : EmitResult :=
  if FatalLog ≥ m then ⟨[printDepthRecord FatalLog c file line payload], some 2⟩
  else ⟨[], none⟩

/-- `loggingT.DebugfDepth` -/
def DebugfDepth (m : Severity) (_depth : Int) (c : Clock) (file : List Char)
    (line : Int) (payload : List Char) : EmitResult :=
  if DebugLog ≥ m then ⟨[printfDepthRecord DebugLog c file line payload], none⟩
  else ⟨[], none⟩

/-- `loggingT.InfofDepth` -/
def InfofDepth (m : Severity) (_depth : Int) (c : Clock) (file : List Char)
    (line : Int) (payload : List Char) : EmitResult :=
  if InfoLog ≥ m then ⟨[printfDepthRecord InfoLog c file line payload], none⟩
  else ⟨[], none⟩

/-- `loggingT.WarningfDepth` -/
def WarningfDepth (m : Severity) (_depth : Int) (c : Clock) (file : List Char)
    (line : Int) (payload : List Char) : EmitResult :=
  if WarningLog ≥ m then ⟨[printfDepthRecord WarningLog c file line payload], none⟩
  else ⟨[], none⟩

/-- `loggingT.ErrorfDepth` -/
def ErrorfDepth (m : Severity) (_depth : Int) (c : Clock) (file : List Char)
    (line : Int) (payload : List Char) : EmitResult :=
  if ErrorLog ≥ m then ⟨[printfDepthRecord ErrorLog c file line payload], none⟩
  else ⟨[], none⟩

/-- `loggingT.FatalfDepth` -/
def FatalfDepth (m : Severity) (_depth : Int) (c : Clock) (file : List Char)
    (line : Int) (payload : List Char) : EmitResult :=
  if FatalLog ≥ m then ⟨[printfDepthRecord FatalLog c file line payload], some 2⟩
  else ⟨[], none⟩

/-! ### The size-string parser -/

/-- How a call can abort the process: `os.Exit(code)` or a Go runtime panic
from an out-of-range slice/index expression. -/
inductive GoAbort where
  | exit (code : Nat)
  | panicSliceOOB
  deriving DecidableEq

/-- `stringToInt`: iterates the runes of `s`; each step runs `ch -= '0'`
in signed `rune` (`int32`) arithmetic, rejects `ch > 9` (a *signed*
comparison, so runes below `'0'` slip through), and accumulates
`n = n*10 + uint64(ch)` in wrapping `uint64` arithmetic. -/
def stringToInt : List Char → Nat → Except Unit Nat
  | [], n => .ok n
  | ch :: rest, n =>
      let d : Int := (ch.toNat : Int) - 48
      if d > 9 then .error ()
      else stringToInt rest ((n * 10 + (d % 2 ^ 64).toNat) % 2 ^ 64)

/-- `unitConv`: splits off the last byte as the unit suffix, parses the rest
with `stringToInt` (exit code 1 on error), then multiplies by 1024 /
1024² / 1024³ for `K`/`M`/`G` (case-insensitive); any other suffix exits
with code 1.  On the empty string the Go expression `s[:len(s)-1]` slices
with a negative bound and panics. -/
def unitConv (s : List Char) : Except GoAbort Nat :=
  if s.length = 0 then .error .panicSliceOOB
  else
    match stringToInt s.dropLast 0 with
    | .error _ => .error (.exit 1)
    | .ok n =>
        match s.getLastD ' ' with
        | 'G' => .ok (n * 1024 * 1024 * 1024 % 2 ^ 64)
        | 'g' => .ok (n * 1024 * 1024 * 1024 % 2 ^ 64)
        | 'M' => .ok (n * 1024 * 1024 % 2 ^ 64)
        | 'm' => .ok (n * 1024 * 1024 % 2 ^ 64)
        | 'K' => .ok (n * 1024 % 2 ^ 64)
        | 'k' => .ok (n * 1024 % 2 ^ 64)
        | _ => .error (.exit 1)

/-- The configuration a `loggingT` is built with. -/
structure LoggerT where
  logPath : List Char
  logLevel : Severity
  fileMaxSize : Nat
  deriving DecidableEq

/-- `NewLogger`: converts the size string first (aborting on bad input),
then builds the logger.  The flush daemon only flushes periodically and
does not change any modelled state. -/
def NewLogger (logPath : List Char) (fileMaxSize : List Char)
    (logLevel : Severity) (_flushInterval : Int) : Except GoAbort LoggerT :=
  (unitConv fileMaxSize).map fun n => ⟨logPath, logLevel, n⟩

/-! ### The rotating file sink (`syncBuffer`) -/

/-- Model of `%d` in `fmt.Sprintf` for a non-negative integer: its
minimal-width decimal digits. -/
def fmtDec (d : Nat) : List Char := Nat.toDigits 10 d

/-- The rotated-file name built in `syncBuffer.rotateFile`:
`fmt.Sprintf("%s.%d%d%d.%d%d%d", logPath, now.Year(), now.Month(),
now.Day(), now.Hour(), now.Minute(), now.Day())` — the last verb is fed
`now.Day()` again, not the seconds. -/
def rotateFileName (logPath : List Char) (now : Clock) : List Char :=
  logPath ++ ['.'] ++ fmtDec now.year ++ fmtDec now.month ++ fmtDec now.day ++
    ['.'] ++ fmtDec now.hour ++ fmtDec now.minute ++ fmtDec now.day

/-- Observable state of a `syncBuffer`: the byte counter `nbytes`, the
bytes accepted into the current file (write buffer included) and the
already-rotated files as (name, contents) pairs. -/
structure SyncBuffer where
  nbytes : Nat
  cur : List Char
  archived : List (List Char × List Char)
  deriving DecidableEq

/-- `syncBuffer.create`: a fresh file at the log path, `nbytes = 0`. -/
def createBuf (sb : SyncBuffer) : SyncBuffer :=
  { sb with nbytes := 0, cur := [] }

/-- `syncBuffer.rotateFile`: flush and close the current file, rename it to
`rotateFileName`, then `create` a fresh one. -/
def rotateFile (logPath : List Char) (now : Clock) (sb : SyncBuffer) :
    SyncBuffer :=
  createBuf { sb with archived := sb.archived ++ [(rotateFileName logPath now, sb.cur)] }

/-- `syncBuffer.Write`: rotate first if `nbytes + len(p) >= fileMaxSize`,
then append `p` to the write buffer and add the accepted count to
`nbytes` (on the success path the buffered writer accepts all of `p`). -/
def syncWrite (logPath : List Char) (maxSize : Nat) (now : Clock)
    (sb : SyncBuffer) (p : List Char) : SyncBuffer :=
  let sb' := if sb.nbytes + p.length ≥ maxSize then rotateFile logPath now sb else sb
  { sb' with cur := sb'.cur ++ p, nbytes := sb'.nbytes + p.length }

/-! ### Spec-side renderings

These definitions follow the specification's words (severity letters
`D I W E F`, zero-padded fixed-width decimal fields, minimal-width decimal),
to be compared with the hand-rolled formatters translated from the source.
`Nat.toDigits 10 d` is the standard minimal-width decimal rendering. -/

/-- Spec-side: the severity letter, `one of D I W E F`. -/
def specSevChar (s : Severity) : Char :=
  if s = 0 then 'D' else if s = 1 then 'I' else if s = 2 then 'W'
  else if s = 3 then 'E' else 'F'

/-- Spec-side: `d` in decimal, zero-padded on the left to `n` characters. -/
def specPad (n d : Nat) : List Char :=
  List.replicate (n - (Nat.toDigits 10 d).length) '0' ++ Nat.toDigits 10 d

/-- Fixed-width, most-significant-first decimal digits of `d` (zero-padded;
for `d < 10 ^ n` exactly the `n`-digit decimal).  Proof-side bridge between
the source's right-to-left loops and `specPad`. -/
def padDigits : Nat → Nat → List Char
  | 0, _ => []
  | n + 1, d => padDigits n (d / 10) ++ [Nat.digitChar (d % 10)]

/-- Spec-side: `ch` is one of the ASCII digits `'0'`..`'9'`. -/
def isDecDigit (ch : Char) : Prop := 48 ≤ ch.toNat ∧ ch.toNat ≤ 57

instance (ch : Char) : Decidable (isDecDigit ch) := by
  unfold isDecDigit
  infer_instance

/-- Spec-side: the numeric value of a decimal numeral (unbounded). -/
def specVal (ds : List Char) : Nat :=
  ds.foldl (fun a ch => a * 10 + (ch.toNat - 48)) 0

/-! ### Decimal-rendering lemmas -/

theorem toDigitsCore_acc (d : Nat) : ∀ fuel acc, d < fuel →
    Nat.toDigitsCore 10 fuel d acc = Nat.toDigits 10 d ++ acc := by
  induction d using Nat.strong_induction_on with
  | _ d ih =>
    intro fuel acc hf
    obtain ⟨f, rfl⟩ : ∃ f, fuel = f + 1 := ⟨fuel - 1, by omega⟩
    by_cases h10 : d / 10 = 0
    · simp only [Nat.toDigitsCore, Nat.toDigits, h10, if_pos, List.cons_append,
        List.nil_append]
    · have hd : d / 10 < d := Nat.div_lt_self (by omega) (by omega)
      simp only [Nat.toDigitsCore, Nat.toDigits, h10, if_neg, ite_false]
      rw [ih (d / 10) hd f (Nat.digitChar (d % 10) :: acc) (by omega),
        ih (d / 10) hd d [Nat.digitChar (d % 10)] hd]
      simp

theorem toDigits_lt (d : Nat) (h : d < 10) :
    Nat.toDigits 10 d = [Nat.digitChar d] := by
  have h10 : d / 10 = 0 := by omega
  simp only [Nat.toDigits, Nat.toDigitsCore, h10, if_pos, Nat.mod_eq_of_lt h]

theorem toDigits_ge (d : Nat) (h : 10 ≤ d) :
    Nat.toDigits 10 d = Nat.toDigits 10 (d / 10) ++ [Nat.digitChar (d % 10)] := by
  have h10 : ¬ d / 10 = 0 := by omega
  have hd : d / 10 < d := Nat.div_lt_self (by omega) (by omega)
  conv_lhs => rw [Nat.toDigits]
  simp only [Nat.toDigitsCore, h10, ite_false, if_neg]
  exact toDigitsCore_acc (d / 10) d [Nat.digitChar (d % 10)] hd

theorem goDigit_eq (d : Nat) : goDigit d = Nat.digitChar (d % 10) := by
  have h : d % 10 < 10 := Nat.mod_lt _ (by omega)
  unfold goDigit
  set k := d % 10 with hk
  interval_cases k <;> rfl

theorem someDigitsGo_eq (d : Nat) : ∀ fuel, d < fuel →
    someDigitsGo fuel d = Nat.toDigits 10 d := by
  induction d using Nat.strong_induction_on with
  | _ d ih =>
    intro fuel hf
    obtain ⟨f, rfl⟩ : ∃ f, fuel = f + 1 := ⟨fuel - 1, by omega⟩
    by_cases h : d < 10
    · rw [someDigitsGo, if_pos h, toDigits_lt d h, goDigit_eq, Nat.mod_eq_of_lt h]
    · have hd : d / 10 < d := Nat.div_lt_self (by omega) (by omega)
      rw [someDigitsGo, if_neg h, ih (d / 10) hd f (by omega), goDigit_eq,
        ← toDigits_ge d (by omega)]

theorem someDigits_eq (d : Nat) : someDigitsList d = Nat.toDigits 10 d :=
  someDigitsGo_eq d (d + 1) (by omega)

theorem padDigits_zero (n : Nat) : padDigits n 0 = List.replicate n '0' := by
  induction n with
  | zero => rfl
  | succ n ih =>
      rw [padDigits, Nat.zero_div, ih]
      show List.replicate n '0' ++ ['0'] = List.replicate (n + 1) '0'
      rw [← List.replicate_succ']

theorem nDigitsList_eq_pad (n : Nat) : ∀ d, nDigitsList n d '0' = padDigits n d := by
  induction n with
  | zero => intro d; rfl
  | succ n ih =>
      intro d
      by_cases h : 0 < d
      · rw [nDigitsList, if_pos h, padDigits, ih, goDigit_eq]
      · have hd : d = 0 := by omega
        subst hd
        rw [nDigitsList, if_neg h, padDigits_zero]

theorem twoDigitsList_eq_pad (d : Nat) : twoDigitsList d = padDigits 2 d := by
  simp [twoDigitsList, padDigits, goDigit_eq]

theorem toDigits_len_le (d : Nat) : ∀ n, 0 < n → d < 10 ^ n →
    (Nat.toDigits 10 d).length ≤ n := by
  induction d using Nat.strong_induction_on with
  | _ d ih =>
    intro n hn hd
    by_cases h : d < 10
    · rw [toDigits_lt d h]
      simpa using hn
    · have hn2 : 2 ≤ n := by
        by_contra hc
        have h1 : n = 1 := by omega
        subst h1
        simp at hd
        omega
      have hdd : d / 10 < d := Nat.div_lt_self (by omega) (by omega)
      have hpow : 10 ^ (n - 1) * 10 = 10 ^ n := by
        rw [← pow_succ]
        congr 1
        omega
      have hq : d / 10 < 10 ^ (n - 1) := by
        rw [Nat.div_lt_iff_lt_mul (by omega)]
        omega
      have := ih (d / 10) hdd (n - 1) (by omega) hq
      rw [toDigits_ge d (by omega)]
      simp only [List.length_append, List.length_cons, List.length_nil]
      omega

theorem padDigits_eq_specPad : ∀ n d, 0 < n → d < 10 ^ n →
    padDigits n d = specPad n d := by
  intro n
  induction n with
  | zero => intro d h; omega
  | succ n ih =>
      intro d _ hd
      by_cases h : d < 10
      · have h0 : d / 10 = 0 := by omega
        rw [padDigits, h0, padDigits_zero, Nat.mod_eq_of_lt h]
        unfold specPad
        rw [toDigits_lt d h]
        simp
      · have hge := toDigits_ge d (by omega)
        have hq : d / 10 < 10 ^ n := by
          rw [Nat.div_lt_iff_lt_mul (by omega)]
          calc d < 10 ^ (n + 1) := hd
            _ = 10 ^ n * 10 := by rw [pow_succ]
        have hn : 0 < n := by
          by_contra hc
          have h0 : n = 0 := by omega
          subst h0
          simp at hd
          omega
        rw [padDigits, ih (d / 10) hn hq]
        unfold specPad
        rw [hge]
        simp only [List.length_append, List.length_cons, List.length_nil,
          List.append_assoc]
        congr 2
        omega

theorem nDigits_eq_specPad (n d : Nat) (hn : 0 < n) (hd : d < 10 ^ n) :
    nDigitsList n d '0' = specPad n d := by
  rw [nDigitsList_eq_pad, padDigits_eq_specPad n d hn hd]

theorem twoDigits_eq_specPad (d : Nat) (hd : d < 100) :
    twoDigitsList d = specPad 2 d := by
  rw [twoDigitsList_eq_pad, padDigits_eq_specPad 2 d (by omega) (by norm_num; omega)]

/-! ### Claim theorems -/

theorem gateShape (S m : Int) (r : List Char) (e : Option Nat) :
    (((if S ≥ m then (⟨[r], e⟩ : EmitResult) else ⟨[], none⟩).records ≠ []) ↔ S ≥ m)
    ∧ ((if S ≥ m then (⟨[r], e⟩ : EmitResult) else ⟨[], none⟩) = ⟨[], none⟩ ↔ S < m) := by
  by_cases h : S ≥ m
  · rw [if_pos h]
    constructor
    · simp [h]
    · rw [EmitResult.mk.injEq]
      simp only [List.cons_ne_nil, false_and, false_iff]
      omega
  · rw [if_neg h]
    constructor
    · simpa using h
    · simp only [true_iff]
      omega

/-- C1: for every severity `S` in `{Debug, Info, Warning, Error, Fatal}` and
every configured minimum level `m`, each emit operation (plain, `*f`,
`*Depth` and `*fDepth` variants) hands a record to the sink iff `S >= m`,
and is a complete no-op (no record, no process exit) iff `S < m`. -/
theorem severity_gate_iff (m dep : Int) (c : Clock) (file : List Char)
    (line : Int) (pay : List Char) :
    ((Debug m c file line pay).records ≠ [] ↔ DebugLog ≥ m) ∧
    (Debug m c file line pay = ⟨[], none⟩ ↔ DebugLog < m) ∧
    ((Info m c file line pay).records ≠ [] ↔ InfoLog ≥ m) ∧
    (Info m c file line pay = ⟨[], none⟩ ↔ InfoLog < m) ∧
    ((Warning m c file line pay).records ≠ [] ↔ WarningLog ≥ m) ∧
    (Warning m c file line pay = ⟨[], none⟩ ↔ WarningLog < m) ∧
    ((Error m c file line pay).records ≠ [] ↔ ErrorLog ≥ m) ∧
    (Error m c file line pay = ⟨[], none⟩ ↔ ErrorLog < m) ∧
    ((Fatal m c file line pay).records ≠ [] ↔ FatalLog ≥ m) ∧
    (Fatal m c file line pay = ⟨[], none⟩ ↔ FatalLog < m) ∧
    ((Debugf m c file line pay).records ≠ [] ↔ DebugLog ≥ m) ∧
    (Debugf m c file line pay = ⟨[], none⟩ ↔ DebugLog < m) ∧
    ((Infof m c file line pay).records ≠ [] ↔ InfoLog ≥ m) ∧
    (Infof m c file line pay = ⟨[], none⟩ ↔ InfoLog < m) ∧
    ((Warningf m c file line pay).records ≠ [] ↔ WarningLog ≥ m) ∧
    (Warningf m c file line pay = ⟨[], none⟩ ↔ WarningLog < m) ∧
    ((Errorf m c file line pay).records ≠ [] ↔ ErrorLog ≥ m) ∧
    (Errorf m c file line pay = ⟨[], none⟩ ↔ ErrorLog < m) ∧
    ((Fatalf m c file line pay).records ≠ [] ↔ FatalLog ≥ m) ∧
    (Fatalf m c file line pay = ⟨[], none⟩ ↔ FatalLog < m) ∧
    ((DebugDepth m dep c file line pay).records ≠ [] ↔ DebugLog ≥ m) ∧
    (DebugDepth m dep c file line pay = ⟨[], none⟩ ↔ DebugLog < m) ∧
    ((InfoDepth m dep c file line pay).records ≠ [] ↔ InfoLog ≥ m) ∧
    (InfoDepth m dep c file line pay = ⟨[], none⟩ ↔ InfoLog < m) ∧
    ((WarningDepth m dep c file line pay).records ≠ [] ↔ WarningLog ≥ m) ∧
    (WarningDepth m dep c file line pay = ⟨[], none⟩ ↔ WarningLog < m) ∧
    ((ErrorDepth m dep c file line pay).records ≠ [] ↔ ErrorLog ≥ m) ∧
    (ErrorDepth m dep c file line pay = ⟨[], none⟩ ↔ ErrorLog < m) ∧
    ((FatalDepth m dep c file line pay).records ≠ [] ↔ FatalLog ≥ m) ∧
    (FatalDepth m dep c file line pay = ⟨[], none⟩ ↔ FatalLog < m) ∧
    ((DebugfDepth m dep c file line pay).records ≠ [] ↔ DebugLog ≥ m) ∧
    (DebugfDepth m dep c file line pay = ⟨[], none⟩ ↔ DebugLog < m) ∧
    ((InfofDepth m dep c file line pay).records ≠ [] ↔ InfoLog ≥ m) ∧
    (InfofDepth m dep c file line pay = ⟨[], none⟩ ↔ InfoLog < m) ∧
    ((WarningfDepth m dep c file line pay).records ≠ [] ↔ WarningLog ≥ m) ∧
    (WarningfDepth m dep c file line pay = ⟨[], none⟩ ↔ WarningLog < m) ∧
    ((ErrorfDepth m dep c file line pay).records ≠ [] ↔ ErrorLog ≥ m) ∧
    (ErrorfDepth m dep c file line pay = ⟨[], none⟩ ↔ ErrorLog < m) ∧
    ((FatalfDepth m dep c file line pay).records ≠ [] ↔ FatalLog ≥ m) ∧
    (FatalfDepth m dep c file line pay = ⟨[], none⟩ ↔ FatalLog < m) :=
  ⟨(gateShape DebugLog m _ none).1, (gateShape DebugLog m _ none).2,
    (gateShape InfoLog m _ none).1, (gateShape InfoLog m _ none).2,
    (gateShape WarningLog m _ none).1, (gateShape WarningLog m _ none).2,
    (gateShape ErrorLog m _ none).1, (gateShape ErrorLog m _ none).2,
    (gateShape FatalLog m _ (some 2)).1, (gateShape FatalLog m _ (some 2)).2,
    (gateShape DebugLog m _ none).1, (gateShape DebugLog m _ none).2,
    (gateShape InfoLog m _ none).1, (gateShape InfoLog m _ none).2,
    (gateShape WarningLog m _ none).1, (gateShape WarningLog m _ none).2,
    (gateShape ErrorLog m _ none).1, (gateShape ErrorLog m _ none).2,
    (gateShape FatalLog m _ (some 2)).1, (gateShape FatalLog m _ (some 2)).2,
    (gateShape DebugLog m _ none).1, (gateShape DebugLog m _ none).2,
    (gateShape InfoLog m _ none).1, (gateShape InfoLog m _ none).2,
    (gateShape WarningLog m _ none).1, (gateShape WarningLog m _ none).2,
    (gateShape ErrorLog m _ none).1, (gateShape ErrorLog m _ none).2,
    (gateShape FatalLog m _ (some 2)).1, (gateShape FatalLog m _ (some 2)).2,
    (gateShape DebugLog m _ none).1, (gateShape DebugLog m _ none).2,
    (gateShape InfoLog m _ none).1, (gateShape InfoLog m _ none).2,
    (gateShape WarningLog m _ none).1, (gateShape WarningLog m _ none).2,
    (gateShape ErrorLog m _ none).1, (gateShape ErrorLog m _ none).2,
    (gateShape FatalLog m _ (some 2)).1, (gateShape FatalLog m _ (some 2)).2⟩

/-- C2: `syncBuffer.Write` rotates before appending exactly when
`nbytes + len(p) >= maxSize`; after such a rotation the fresh file contains
only `p`'s bytes, and without rotation `p` is appended to the current
contents.  (Rotation is observable as growth of the archived-file list.) -/
theorem syncBuffer_write_rotates (lp : List Char) (maxSize : Nat) (now : Clock)
    (sb : SyncBuffer) (p : List Char) :
    ((syncWrite lp maxSize now sb p).archived = sb.archived ↔
      sb.nbytes + p.length < maxSize) ∧
    (maxSize ≤ sb.nbytes + p.length → (syncWrite lp maxSize now sb p).cur = p) ∧
    (sb.nbytes + p.length < maxSize →
      (syncWrite lp maxSize now sb p).cur = sb.cur ++ p) := by
  unfold syncWrite rotateFile createBuf
  by_cases h : sb.nbytes + p.length ≥ maxSize
  · rw [if_pos h]
    refine ⟨?_, fun _ => by simp, fun hlt => absurd h (by omega)⟩
    simp only [List.nil_append]
    constructor
    · intro he
      have hlen := congrArg List.length he
      simp at hlen
    · intro hlt
      exact absurd h (by omega)
  · rw [if_neg h]
    exact ⟨by simp only [true_iff]; omega, fun hge => absurd hge h, fun _ => rfl⟩

/-- Witness for `syncBuffer_write_rotates`: the spec's scenario with
`maxSize = 100` and two 60-byte writes.  The first write (fresh sink,
`nbytes = 0`) does not rotate and lands in the current file; the second
write (`nbytes = 60`) satisfies `60 + 60 >= 100`, so it rotates and the new
file contains exactly the 60 written bytes. -/
theorem syncBuffer_write_rotates_witness :
    0 + (List.replicate 60 'a').length < 100 ∧
    100 ≤ 60 + (List.replicate 60 'a').length ∧
    (syncWrite ['l', 'o', 'g'] 100 ⟨2024, 3, 7, 8, 9, 5, 0⟩ ⟨0, [], []⟩
      (List.replicate 60 'a')).archived = [] ∧
    (syncWrite ['l', 'o', 'g'] 100 ⟨2024, 3, 7, 8, 9, 5, 0⟩ ⟨0, [], []⟩
      (List.replicate 60 'a')).cur = List.replicate 60 'a' ∧
    (syncWrite ['l', 'o', 'g'] 100 ⟨2024, 3, 7, 8, 9, 5, 0⟩
      ⟨60, List.replicate 60 'a', []⟩ (List.replicate 60 'a')).cur =
      List.replicate 60 'a' :=
  ⟨by decide, by decide,
    (syncBuffer_write_rotates ['l', 'o', 'g'] 100 ⟨2024, 3, 7, 8, 9, 5, 0⟩
      ⟨0, [], []⟩ (List.replicate 60 'a')).1.mpr (by decide),
    ((syncBuffer_write_rotates ['l', 'o', 'g'] 100 ⟨2024, 3, 7, 8, 9, 5, 0⟩
      ⟨0, [], []⟩ (List.replicate 60 'a')).2.2 (by decide)).trans
      (List.nil_append _),
    (syncBuffer_write_rotates ['l', 'o', 'g'] 100 ⟨2024, 3, 7, 8, 9, 5, 0⟩
      ⟨60, List.replicate 60 'a', []⟩ (List.replicate 60 'a')).2.1 (by decide)⟩

theorem nbytes_cur_foldl (lp : List Char) (maxSize : Nat) (now : Clock) :
    ∀ (ws : List (List Char)) (sb : SyncBuffer), sb.nbytes = sb.cur.length →
      (List.foldl (syncWrite lp maxSize now) sb ws).nbytes =
        (List.foldl (syncWrite lp maxSize now) sb ws).cur.length := by
  intro ws
  induction ws with
  | nil => intro sb h; exact h
  | cons p ws ih =>
      intro sb h
      rw [List.foldl_cons]
      apply ih
      unfold syncWrite rotateFile createBuf
      by_cases hr : sb.nbytes + p.length ≥ maxSize
      · rw [if_pos hr]
        simp
      · rw [if_neg hr]
        simp [h]

/-- C5: the byte counter is maintained by every sink operation — `create`
and `rotateFile` reset it to 0, `Write` adds exactly the accepted byte
count, and hence after any sequence of writes from a fresh sink `nbytes`
equals the size of the bytes accepted into the current file. -/
theorem nbytes_tracks_bytes (lp : List Char) (maxSize : Nat) (now : Clock)
    (sb : SyncBuffer) (p : List Char) (ws : List (List Char)) :
    (createBuf sb).nbytes = 0 ∧
    (rotateFile lp now sb).nbytes = 0 ∧
    ((syncWrite lp maxSize now sb p).nbytes =
      (if sb.nbytes + p.length ≥ maxSize then 0 else sb.nbytes) + p.length) ∧
    ((List.foldl (syncWrite lp maxSize now) ⟨0, [], []⟩ ws).nbytes =
      (List.foldl (syncWrite lp maxSize now) ⟨0, [], []⟩ ws).cur.length) := by
  refine ⟨rfl, rfl, ?_, nbytes_cur_foldl lp maxSize now ws ⟨0, [], []⟩ rfl⟩
  unfold syncWrite rotateFile createBuf
  by_cases hr : sb.nbytes + p.length ≥ maxSize
  · rw [if_pos hr, if_pos hr]
  · rw [if_neg hr, if_neg hr]

theorem getLast?_append_ne (l₁ l₂ : List Char) (ch : Char)
    (h1 : l₁.getLast? ≠ some ch) (h2 : l₂.getLast? ≠ some ch) :
    (l₁ ++ l₂).getLast? ≠ some ch := by
  rcases l₂.eq_nil_or_concat' with rfl | ⟨q, a, rfl⟩
  · simpa using h1
  · rw [← List.append_assoc, List.getLast?_concat]
    simpa using h2

theorem formatHeader_ends_space (s : Int) (c : Clock) (file : List Char)
    (line : Int) : (formatHeader s c file line).getLast? = some ' ' := by
  unfold formatHeader
  exact List.getLast?_concat _

/-- C4 (amended): the assembled record appends a newline exactly when the
formatted payload does not already end in one, so it always ends in at
least one newline, and it ends in *exactly* one newline provided the
payload does not itself end in two or more newlines (a payload with two or
more trailing newlines is passed through unchanged). -/
theorem record_single_newline (s : Int) (c : Clock) (file : List Char)
    (line : Int) (pay : List Char) :
    (pay.getLast? ≠ some '\n' → printDepthRecord s c file line pay =
      formatHeader s c file line ++ pay ++ ['\n']) ∧
    (pay.getLast? = some '\n' → printDepthRecord s c file line pay =
      formatHeader s c file line ++ pay) ∧
    (printDepthRecord s c file line pay).getLast? = some '\n' ∧
    (printfDepthRecord s c file line pay = printDepthRecord s c file line pay) ∧
    (¬(pay.getLast? = some '\n' ∧ pay.dropLast.getLast? = some '\n') →
      (printDepthRecord s c file line pay).dropLast.getLast? ≠ some '\n') := by
  have hh : (formatHeader s c file line).getLast? ≠ some '\n' := by
    rw [formatHeader_ends_space]
    simp
  have hB : pay.getLast? = some '\n' →
      (formatHeader s c file line ++ pay).getLast? = some '\n' := by
    intro hp
    rw [List.getLast?_append, hp]
    rfl
  have hApp : pay.getLast? ≠ some '\n' →
      printDepthRecord s c file line pay =
        formatHeader s c file line ++ pay ++ ['\n'] := by
    intro hp
    unfold printDepthRecord finishLine
    rw [if_neg (getLast?_append_ne _ _ _ hh hp)]
  have hKeep : pay.getLast? = some '\n' →
      printDepthRecord s c file line pay = formatHeader s c file line ++ pay := by
    intro hp
    unfold printDepthRecord finishLine
    rw [if_pos (hB hp)]
  refine ⟨hApp, hKeep, ?_, rfl, ?_⟩
  · by_cases hp : pay.getLast? = some '\n'
    · rw [hKeep hp]
      exact hB hp
    · rw [hApp hp]
      exact List.getLast?_concat _
  · intro hc
    by_cases hp : pay.getLast? = some '\n'
    · have hq : pay.dropLast.getLast? ≠ some '\n' := fun h => hc ⟨hp, h⟩
      rcases pay.eq_nil_or_concat' with rfl | ⟨q, a, rfl⟩
      · simp at hp
      · rw [List.dropLast_concat] at hq
        rw [hKeep hp, ← List.append_assoc, List.dropLast_concat]
        exact getLast?_append_ne _ _ _ hh hq
    · rw [hApp hp, List.dropLast_concat]
      exact getLast?_append_ne _ _ _ hh hp

/-- Witness for `record_single_newline`: payloads `"x"` and `"x\n"` at the
spec's example header both yield the same record, which ends in exactly one
newline. -/
theorem record_single_newline_witness :
    ("x".toList.getLast? ≠ some '\n' →
      printDepthRecord 1 ⟨2024, 3, 7, 8, 9, 5, 123000⟩ "demo.go".toList 42 "x".toList =
        formatHeader 1 ⟨2024, 3, 7, 8, 9, 5, 123000⟩ "demo.go".toList 42 ++
          "x".toList ++ ['\n']) ∧
    (printDepthRecord 1 ⟨2024, 3, 7, 8, 9, 5, 123000⟩ "demo.go".toList 42
      "x".toList).getLast? = some '\n' ∧
    (¬("x".toList.getLast? = some '\n' ∧ "x".toList.dropLast.getLast? = some '\n') →
      (printDepthRecord 1 ⟨2024, 3, 7, 8, 9, 5, 123000⟩ "demo.go".toList 42
        "x".toList).dropLast.getLast? ≠ some '\n') :=
  ⟨(record_single_newline 1 ⟨2024, 3, 7, 8, 9, 5, 123000⟩ "demo.go".toList 42
      "x".toList).1,
    (record_single_newline 1 ⟨2024, 3, 7, 8, 9, 5, 123000⟩ "demo.go".toList 42
      "x".toList).2.2.1,
    (record_single_newline 1 ⟨2024, 3, 7, 8, 9, 5, 123000⟩ "demo.go".toList 42
      "x".toList).2.2.2.2⟩

theorem formatHeader_head_F (c : Clock) (file : List Char) (line : Int) :
    (formatHeader FatalLog c file line).head? = some 'F' := by
  unfold formatHeader
  simp only [List.singleton_append, List.cons_append, List.head?_cons]
  rfl

theorem finishLine_header_head (c : Clock) (file : List Char) (line : Int)
    (pay : List Char) :
    (finishLine (formatHeader FatalLog c file line ++ pay)).head? = some 'F' := by
  have hhd : (formatHeader FatalLog c file line ++ pay).head? = some 'F' := by
    rw [List.head?_append, formatHeader_head_F]
    rfl
  unfold finishLine
  split
  · exact hhd
  · rw [List.head?_append, hhd]
    rfl

/-- C7: for every configured minimum severity (one of the five defined
levels) and every payload, each of `Fatal`, `Fatalf`, `FatalDepth` and
`FatalfDepth` emits its record with severity character `F` and then
terminates the process (exit code 2, reached through `loggingT.exit` after
a best-effort flush). -/
theorem fatal_emits_and_exits (m dep : Int) (c : Clock) (file : List Char)
    (line : Int) (pay : List Char) (h0 : DebugLog ≤ m) (h4 : m ≤ FatalLog) :
    (Fatal m c file line pay).exitCode = some 2 ∧
    (Fatal m c file line pay).records.map List.head? = [some 'F'] ∧
    (Fatalf m c file line pay).exitCode = some 2 ∧
    (Fatalf m c file line pay).records.map List.head? = [some 'F'] ∧
    (FatalDepth m dep c file line pay).exitCode = some 2 ∧
    (FatalDepth m dep c file line pay).records.map List.head? = [some 'F'] ∧
    (FatalfDepth m dep c file line pay).exitCode = some 2 ∧
    (FatalfDepth m dep c file line pay).records.map List.head? = [some 'F'] := by
  have hge : FatalLog ≥ m := h4
  unfold Fatal Fatalf FatalDepth FatalfDepth
  rw [if_pos hge, if_pos hge, if_pos hge, if_pos hge]
  refine ⟨rfl, ?_, rfl, ?_, rfl, ?_, rfl, ?_⟩ <;>
    simp only [List.map_cons, List.map_nil, List.cons.injEq, and_true] <;>
    exact finishLine_header_head c file line pay

/-- Witness for `fatal_emits_and_exits` at minimum level `WarningLog`,
the spec's example clock, caller `("demo.go", 42)` and payload `"boom"`. -/
theorem fatal_emits_and_exits_witness :
    DebugLog ≤ (2 : Int) ∧ (2 : Int) ≤ FatalLog ∧
    (Fatal 2 ⟨2024, 3, 7, 8, 9, 5, 123000⟩ "demo.go".toList 42
      "boom".toList).exitCode = some 2 ∧
    (Fatal 2 ⟨2024, 3, 7, 8, 9, 5, 123000⟩ "demo.go".toList 42
      "boom".toList).records.map List.head? = [some 'F'] ∧
    (Fatalf 2 ⟨2024, 3, 7, 8, 9, 5, 123000⟩ "demo.go".toList 42
      "boom".toList).exitCode = some 2 :=
  ⟨by decide, by decide,
    (fatal_emits_and_exits 2 0 ⟨2024, 3, 7, 8, 9, 5, 123000⟩ "demo.go".toList 42
      "boom".toList (by decide) (by decide)).1,
    (fatal_emits_and_exits 2 0 ⟨2024, 3, 7, 8, 9, 5, 123000⟩ "demo.go".toList 42
      "boom".toList (by decide) (by decide)).2.1,
    (fatal_emits_and_exits 2 0 ⟨2024, 3, 7, 8, 9, 5, 123000⟩ "demo.go".toList 42
      "boom".toList (by decide) (by decide)).2.2.1⟩

/-- Counterexample for C4 as stated: with payload `"x\n\n"` the assembled
record ends in *two* newlines — the assembler only refrains from appending,
it never trims, so "the result never ends in two or more newlines" fails. -/
theorem record_double_newline_cx :
    (printfDepthRecord 1 ⟨2024, 3, 7, 8, 9, 5, 123000⟩ "demo.go".toList 42
      "x\n\n".toList).getLast? = some '\n' ∧
    (printfDepthRecord 1 ⟨2024, 3, 7, 8, 9, 5, 123000⟩ "demo.go".toList 42
      "x\n\n".toList).dropLast.getLast? = some '\n' := by
  constructor <;> decide

/-- C3: for every severity, clock value, caller file name and caller line,
`formatHeader` produces exactly
`<SeverityChar><YYYY>-<MM>-<DD> <HH>:<MM>:<SS>.<uuuuuu> <file>:<line>] `
with a single trailing space: the severity character is one of `D I W E F`,
the year is 4 digits, month/day/hour/minute/second are 2 digits
zero-padded, microseconds are 6 digits zero-padded, and the line is a
minimal-width decimal. -/
theorem formatHeader_exact (s : Int) (c : Clock) (file : List Char)
    (line : Int) (hs0 : 0 ≤ s) (hs4 : s ≤ FatalLog)
    (hy : c.year ≤ 9999) (hmo : c.month ≤ 12) (hd : c.day ≤ 31)
    (hh : c.hour < 24) (hmi : c.minute < 60) (hse : c.second < 60)
    (hns : c.nanosecond < 1000000000) (hl : 0 ≤ line) :
    formatHeader s c file line =
      [specSevChar s] ++ specPad 4 c.year ++ ['-'] ++ specPad 2 c.month ++
        ['-'] ++ specPad 2 c.day ++ [' '] ++ specPad 2 c.hour ++ [':'] ++
        specPad 2 c.minute ++ [':'] ++ specPad 2 c.second ++ ['.'] ++
        specPad 6 (c.nanosecond / 1000) ++ [' '] ++ file ++ [':'] ++
        Nat.toDigits 10 line.toNat ++ [']'] ++ [' '] := by
  have hs4' : s ≤ (4 : Int) := hs4
  have hsev : severityChars.getD s.toNat 'D' = specSevChar s := by
    interval_cases s <;> rfl
  simp only [formatHeader]
  rw [if_neg (show ¬ s > FatalLog by simp only [FatalLog]; omega),
    if_neg (show ¬ line < 0 by omega)]
  rw [nDigits_eq_specPad 4 c.year (by omega) (by norm_num; omega),
    twoDigits_eq_specPad c.month (by omega),
    twoDigits_eq_specPad c.day (by omega),
    twoDigits_eq_specPad c.hour (by omega),
    twoDigits_eq_specPad c.minute (by omega),
    twoDigits_eq_specPad c.second (by omega),
    nDigits_eq_specPad 6 (c.nanosecond / 1000) (by omega) (by norm_num; omega),
    someDigits_eq, hsev]

theorem stringToInt_digits (ds : List Char) : ∀ n : Nat,
    (∀ ch ∈ ds, isDecDigit ch) →
    stringToInt ds (n % 2 ^ 64) =
      .ok (ds.foldl (fun a ch => a * 10 + (ch.toNat - 48)) n % 2 ^ 64) := by
  induction ds with
  | nil => intro n _; rfl
  | cons ch rest ih =>
      intro n h
      obtain ⟨hd1, hd2⟩ : isDecDigit ch := h ch (by simp)
      have hpow : (2 : Int) ^ 64 = 18446744073709551616 := by norm_num
      have hpn : (2 : Nat) ^ 64 = 18446744073709551616 := by norm_num
      simp only [stringToInt]
      rw [if_neg (by omega : ¬ ((ch.toNat : Int) - 48) > 9)]
      have hk : (((ch.toNat : Int) - 48) % 2 ^ 64).toNat = ch.toNat - 48 := by
        rw [Int.emod_eq_of_lt (by omega) (by rw [hpow]; omega)]
        omega
      rw [hk]
      have hcong : (n % 2 ^ 64 * 10 + (ch.toNat - 48)) % 2 ^ 64 =
          (n * 10 + (ch.toNat - 48)) % 2 ^ 64 := by
        rw [hpn]
        omega
      rw [hcong, ih (n * 10 + (ch.toNat - 48)) (fun a ha => h a (by simp [ha])),
        List.foldl_cons]

theorem stringToInt_digits0 (ds : List Char) (h : ∀ ch ∈ ds, isDecDigit ch) :
    stringToInt ds 0 = .ok (specVal ds % 2 ^ 64) := by
  have hz := stringToInt_digits ds 0 h
  rw [Nat.zero_mod] at hz
  exact hz

/-- C9 (amended): for a size string made of a decimal numeral and a unit
suffix, `unitConv` returns the numeral times 1024 / 1024² / 1024³ for
`K`/`k`, `M`/`m`, `G`/`g` — *reduced modulo 2^64*, since the source
computes in wrapping `uint64` arithmetic (the product is exact whenever it
is below 2^64).  In particular `unitConv("10M") = 10485760` and
`unitConv("1G") = 1073741824`. -/
theorem unitConv_unit_multipliers (ds : List Char)
    (hds : ∀ ch ∈ ds, isDecDigit ch) :
    (unitConv (ds ++ ['K']) = .ok (specVal ds * 1024 % 2 ^ 64)) ∧
    (unitConv (ds ++ ['k']) = .ok (specVal ds * 1024 % 2 ^ 64)) ∧
    (unitConv (ds ++ ['M']) = .ok (specVal ds * 1048576 % 2 ^ 64)) ∧
    (unitConv (ds ++ ['m']) = .ok (specVal ds * 1048576 % 2 ^ 64)) ∧
    (unitConv (ds ++ ['G']) = .ok (specVal ds * 1073741824 % 2 ^ 64)) ∧
    (unitConv (ds ++ ['g']) = .ok (specVal ds * 1073741824 % 2 ^ 64)) ∧
    unitConv "10M".toList = .ok 10485760 ∧
    unitConv "1G".toList = .ok 1073741824 := by
  have h0 := stringToInt_digits0 ds hds
  refine ⟨?_, ?_, ?_, ?_, ?_, ?_, rfl, rfl⟩ <;>
    [skip; skip; skip; skip; skip; skip] <;>
    unfold unitConv <;>
    rw [if_neg (by simp), List.dropLast_concat, h0, List.getLastD_concat] <;>
    refine congrArg Except.ok ?_
  · exact Nat.mod_mul_mod
  · exact Nat.mod_mul_mod
  · rw [mul_assoc, show (1024 * 1024 : Nat) = 1048576 by norm_num]
    exact Nat.mod_mul_mod
  · rw [mul_assoc, show (1024 * 1024 : Nat) = 1048576 by norm_num]
    exact Nat.mod_mul_mod
  · rw [mul_assoc, mul_assoc, show (1024 * (1024 * 1024) : Nat) = 1073741824 by norm_num]
    exact Nat.mod_mul_mod
  · rw [mul_assoc, mul_assoc, show (1024 * (1024 * 1024) : Nat) = 1073741824 by norm_num]
    exact Nat.mod_mul_mod

/-- Witness for `unitConv_unit_multipliers` at the numeral `"10"`:
`unitConv("10M")` is 10 × 1024 × 1024 and `unitConv("10K")` is 10 × 1024. -/
theorem unitConv_unit_multipliers_witness :
    (∀ ch ∈ ['1', '0'], isDecDigit ch) ∧
    unitConv (['1', '0'] ++ ['M']) = .ok (specVal ['1', '0'] * 1048576 % 2 ^ 64) ∧
    unitConv (['1', '0'] ++ ['K']) = .ok (specVal ['1', '0'] * 1024 % 2 ^ 64) :=
  ⟨by decide,
    (unitConv_unit_multipliers ['1', '0'] (by decide)).2.2.1,
    (unitConv_unit_multipliers ['1', '0'] (by decide)).1⟩

set_option maxRecDepth 4000 in
/-- Counterexample for C9 as stated: the numeral 2^64 = 18446744073709551616
followed by `K` is a decimal-numeral-plus-suffix size string, but the
wrapping `uint64` accumulation returns 0, not 2^64 × 1024. -/
theorem unitConv_overflow_cx :
    unitConv "18446744073709551616K".toList = .ok 0 ∧
    (0 : Nat) ≠ 18446744073709551616 * 1024 :=
  ⟨rfl, by decide⟩

/-- C6 is contradicted by the code: `stringToInt`'s digit test `ch -= '0';
if ch > 9` is a *signed* comparison, so a character below `'0'` (here
`'+'`, code point 43, giving −5) is not rejected; its `uint64` conversion
wraps, and `unitConv("+5K")` returns a huge byte budget instead of
terminating with exit code 1. -/
theorem unitConv_accepts_nondigit :
    stringToInt "+5".toList 0 = .ok 18446744073709551571 ∧
    unitConv "+5K".toList = .ok 18446744073709505536 ∧
    unitConv "+5K".toList ≠ .error (.exit 1) :=
  ⟨rfl, rfl, fun h => Except.noConfusion h⟩

/-- C10: on the empty size string `unitConv` — and therefore `NewLogger`,
which runs it before anything else — hits the Go slice expression
`s[:len(s)-1]` with a negative bound and panics; it does not report a
configuration error with exit code 1. -/
theorem unitConv_empty_panics (path : List Char) (level : Int) (iv : Int) :
    unitConv [] = .error .panicSliceOOB ∧
    NewLogger path [] level iv = .error .panicSliceOOB ∧
    NewLogger path [] level iv ≠ .error (.exit 1) :=
  ⟨rfl, rfl, fun h => absurd (Except.error.inj h) (by decide)⟩

/-- C8: the rotated file's name is the original path, a dot, then
year/month-number/day of the rotation time, a dot, then hour/minute/day
again — the day value reappears where seconds would be expected — each
field a minimal-width decimal with no zero padding.  Concretely, rotating
`/tmp/test.log` at 2024-03-07 08:09:05 names the file
`/tmp/test.log.202437.897`. -/
theorem rotate_filename_format (lp : List Char) (t : Clock) (sb : SyncBuffer) :
    rotateFileName lp t =
      lp ++ ['.'] ++ Nat.toDigits 10 t.year ++ Nat.toDigits 10 t.month ++
        Nat.toDigits 10 t.day ++ ['.'] ++ Nat.toDigits 10 t.hour ++
        Nat.toDigits 10 t.minute ++ Nat.toDigits 10 t.day ∧
    (rotateFile lp t sb).archived =
      sb.archived ++ [(rotateFileName lp t, sb.cur)] ∧
    rotateFileName "/tmp/test.log".toList ⟨2024, 3, 7, 8, 9, 5, 0⟩ =
      "/tmp/test.log.202437.897".toList :=
  ⟨rfl, rfl, by decide⟩

/-- Witness for `formatHeader_exact`: at the spec's example inputs —
severity `Info`, clock 2024-03-07 08:09:05.000123, caller
`("demo.go", 42)` — the header is exactly
`"I2024-03-07 08:09:05.000123 demo.go:42] "`. -/
theorem formatHeader_exact_witness :
    (0 : Int) ≤ 1 ∧ (1 : Int) ≤ FatalLog ∧ 2024 ≤ 9999 ∧ 3 ≤ 12 ∧ 7 ≤ 31 ∧
      8 < 24 ∧ 9 < 60 ∧ 5 < 60 ∧ 123000 < 1000000000 ∧ (0 : Int) ≤ 42 ∧
      formatHeader 1 ⟨2024, 3, 7, 8, 9, 5, 123000⟩ "demo.go".toList 42 =
        "I2024-03-07 08:09:05.000123 demo.go:42] ".toList :=
  ⟨by decide, by decide, by decide, by decide, by decide, by decide, by decide,
    by decide, by decide, by decide,
    (formatHeader_exact 1 ⟨2024, 3, 7, 8, 9, 5, 123000⟩ "demo.go".toList 42
      (by decide) (by decide) (by decide) (by decide) (by decide) (by decide)
      (by decide) (by decide) (by decide) (by decide)).trans (by decide)⟩

end Glog
